import Mathlib

/-!
Verification development for the demo-redis book-store service.

The Go sources are shallowly embedded: pure data flow becomes Lean
functions, the HTTP response writer and its wrapper become explicit
state passing over a wire-output record, effectful collaborator calls
(storage tiers, queue, clock, json formatting of timestamps) are passed
in as explicit outcome parameters, and the race inside the timeout
middleware is resolved by an explicit outcome value.  Machine integers
are Nat (no overflow is relevant on the modelled paths).  JSON bodies
are modelled as ordered field maps, abstracting byte-level encoding.
-/

/-! ## Wire model: headers and the underlying raw response writer.

Go net/http Header.Set replaces the value list for a key; Header.Get
returns the first value for the key or the empty string.  A header map
is modelled as an association list where the most recent Set is at the
front. -/

def hSet (hs : List (String × String)) (k v : String) : List (String × String) :=
  (k, v) :: hs.filter (fun p => !(p.1 == k))

def hGet (hs : List (String × String)) (k : String) : String :=
  ((hs.find? (fun p => p.1 == k)).map Prod.snd).getD ""

/-- The underlying http.ResponseWriter plus the shared header map.
`statuses` is the ordered list of status codes handed to the raw
WriteHeader; `chunks` is the ordered list of body chunks handed to the
raw Write.  net/http commits only the first status of `statuses`. -/
structure RawWriter where
  headers : List (String × String)
  statuses : List Nat
  chunks : List String
  deriving Repr, DecidableEq

def RawWriter.init : RawWriter := ⟨[], [], []⟩

/-- The status actually sent over the wire: the first committed status
code, or 200 when the body was sent without an explicit WriteHeader
(net/http defaults to 200). -/
def RawWriter.wireStatus (rw : RawWriter) : Nat :=
  rw.statuses.head?.getD 200

/-! ## CustomResponseWriter (the write-once response sink), from
src/unnamed/part_011.  Fields `code`, `bytes`, `wrote` mirror the Go
struct; the shared header map lives in the RawWriter. -/

structure CustomResponseWriter where
  code : Nat
  bytes : Nat
  wrote : Bool
  deriving Repr, DecidableEq

/-- NewCustomResponseWriter provides the sink with 200 as status code. -/
def NewCustomResponseWriter : CustomResponseWriter := ⟨200, 0, false⟩

def abortKey : String := "X-DRAP-ABORTED"

/-- Whether the guard has set the abort marker on the shared header
map, as tested by the Go code `cw.Header().Get(abortKey) != ""`. -/
def RawWriter.aborted (rw : RawWriter) : Bool :=
  !(hGet rw.headers abortKey == "")

/-- CustomResponseWriter.WriteHeader: when the abort marker is set the
code is recorded and the call is swallowed; otherwise the first call
records, forwards once and marks the sink written; later calls are
ignored. -/
def CustomResponseWriter.WriteHeader (cw : CustomResponseWriter) (rw : RawWriter)
    (c : Nat) : CustomResponseWriter × RawWriter :=
  if rw.aborted then
    ({ cw with code := c, wrote := true }, rw)
  else if !cw.wrote then
    ({ cw with code := c, wrote := true },
     { rw with statuses := rw.statuses ++ [c] })
  else
    (cw, rw)

def abortErrMsg : String := "handler: request timed out or cancelled"

/-- CustomResponseWriter.Write: when aborted, returns an explicit error
and forwards nothing; otherwise commits the current code on first
write, then forwards the chunk and accumulates the byte count.  The
underlying writer is modelled as always accepting the chunk. -/
def CustomResponseWriter.Write (cw : CustomResponseWriter) (rw : RawWriter)
    (s : String) : (CustomResponseWriter × RawWriter) × Except String Nat :=
  if rw.aborted then
    ((cw, rw), .error abortErrMsg)
  else
    let (cw1, rw1) :=
      if !cw.wrote then CustomResponseWriter.WriteHeader cw rw cw.code else (cw, rw)
    ((({ cw1 with bytes := cw1.bytes + s.length }),
      { rw1 with chunks := rw1.chunks ++ [s] }), .ok s.length)

/-- CustomResponseWriter.Status: the recorded status code, read by the
statistics middleware on exit. -/
def CustomResponseWriter.Status (cw : CustomResponseWriter) : Nat := cw.code

/-- CustomResponseWriter.Bytes accessor. -/
def CustomResponseWriter.Bytes (cw : CustomResponseWriter) : Nat := cw.bytes

/-! Operations a request lifetime can perform against the sink.  The
abort operation models the guard setting the abort marker on the shared
header map; in the repository it is only ever set to "C" or "T"
(api.middlewares.go, TimeoutMiddleware), both nonempty. -/

inductive SinkOp where
  | writeHeader (c : Nat)
  | write (s : String)
  | abort (timedOut : Bool)
  deriving Repr, DecidableEq

def abortValue (timedOut : Bool) : String := if timedOut then "T" else "C"

/-- One step of the sink state machine. -/
def sinkStep (st : CustomResponseWriter × RawWriter) (op : SinkOp) :
    CustomResponseWriter × RawWriter :=
  match op with
  | .writeHeader c => CustomResponseWriter.WriteHeader st.1 st.2 c
  | .write s => (CustomResponseWriter.Write st.1 st.2 s).1
  | .abort t => (st.1, { st.2 with headers := hSet st.2.headers abortKey (abortValue t) })

/-- Run a sequence of sink operations. -/
def sinkRun (st : CustomResponseWriter × RawWriter) (ops : List SinkOp) :
    CustomResponseWriter × RawWriter :=
  ops.foldl sinkStep st

/-! Specification-side trace of forwarded status codes, written from
the words of the claim: the code forwarded over the wire is the first
code that reaches the sink while it is not yet finalized (not aborted
and nothing written); the code a first Write commits implicitly is the
current default 200; every later call forwards nothing. -/

def specForwarded : Bool → Bool → List SinkOp → List Nat
  | _, _, [] => []
  | ab, wr, op :: rest =>
    match op with
    | .abort _ => specForwarded true wr rest
    | .writeHeader c =>
        if ab || wr then specForwarded ab true rest
        else c :: specForwarded ab true rest
    | .write _ =>
        if ab then specForwarded ab wr rest
        else if wr then specForwarded ab wr rest
        else 200 :: specForwarded ab true rest

/-! ## Cancellation guard (TimeoutMiddleware, api.middlewares.go lines
145-179).  The select between the handler-done channel and the request
context is resolved by an explicit race outcome; the two possible
context causes mirror context.Canceled and context.DeadlineExceeded. -/

inductive CtxCause where
  | canceled
  | deadlineExceeded
  deriving Repr, DecidableEq

inductive RaceOutcome where
  | handlerDone
  | ctxDone (cause : CtxCause)
  deriving Repr, DecidableEq

/-- Output actions against the raw writer (header set, status commit,
JSON body).  Bodies are field maps: byte-level JSON layout is not
modelled. -/
inductive WireOp where
  | setHeader (k v : String)
  | writeStatus (c : Nat)
  | writeBody (fields : List (String × String))
  deriving Repr, DecidableEq

/-- Abstract JSON rendering of a field map, used only to place a body
chunk on the wire. -/
def encodeFields (fs : List (String × String)) : String :=
  String.intercalate "," (fs.map (fun p => p.1 ++ ":" ++ p.2))

def applyWireOp (rw : RawWriter) : WireOp → RawWriter
  | .setHeader k v => { rw with headers := hSet rw.headers k v }
  | .writeStatus c => { rw with statuses := rw.statuses ++ [c] }
  | .writeBody fs => { rw with chunks := rw.chunks ++ [encodeFields fs] }

def applyGuard (rw : RawWriter) (ops : List WireOp) : RawWriter :=
  ops.foldl applyWireOp rw

def nanosPerSec : Nat := 1000000000

/-- Models fmt.Sprintf of a duration in seconds with zero fractional
digits (round half to even); exact for whole-second durations, the
only case the route configuration uses and the theorems exercise. -/
def f0Round (ns : Nat) : Nat :=
  let q := ns / nanosPerSec
  let r := ns % nanosPerSec
  if 2 * r < nanosPerSec then q
  else if nanosPerSec < 2 * r then q + 1
  else if q % 2 = 0 then q else q + 1

def fmtTimeoutSecs (ns : Nat) : String := toString (f0Round ns) ++ " secs"

def contentTypeKey : String := "Content-Type"

def jsonContentType : String := "application/json; charset=UTF-8"

/-- The ordered wire actions the TimeoutMiddleware performs after its
select resolves, as a function of which signal won. -/
def TimeoutMiddlewareGuard (requestID : String) (timeoutNs : Nat) :
    RaceOutcome → List WireOp
  | .handlerDone => []
  | .ctxDone .canceled =>
      [.setHeader abortKey "C", .writeStatus 499]
  | .ctxDone .deadlineExceeded =>
      [.setHeader abortKey "T",
       .setHeader contentTypeKey jsonContentType,
       .writeStatus 504,
       .writeBody [("requestid", requestID),
                   ("message", "request handling timed out"),
                   ("timeout", fmtTimeoutSecs timeoutNs)]]

/-! ## Maintenance switch (api.handlers.go lines 81-131 and
api.middlewares.go lines 78-91).  time.Time instants are opaque Nat
tokens rendered by a collaborator-supplied RFC1123 formatter. -/

structure Maintenance where
  enabled : Bool
  message : String
  started : Nat
  deriving Repr, DecidableEq

/-- The Maintenance handler method of APIHandler (named Maintenance in the Go source; renamed here to avoid clashing with the state struct of the same name): selects the mode action from the route
parameter (falling back to the query parameter), mutates the mode
state, and emits the response.  The show branch is the only one that
commits a non-default status (503). -/
def APIHandler.MaintenanceEndpoint (fmtRFC1123 : Nat → String) (m : Maintenance)
    (requestID : String) (psStatus qStatus qMsg : String) (now : Nat) :
    Maintenance × List WireOp :=
  let mstatus := if psStatus == "show" then "show" else qStatus
  let ct : WireOp := .setHeader contentTypeKey jsonContentType
  if mstatus == "enable" then
    ({ m with message := qMsg, started := now, enabled := true },
     [ct, .writeBody [("requestid", requestID),
                      ("maintenance.started", fmtRFC1123 now),
                      ("maintenance.message", qMsg),
                      ("message", "Maintenance mode enabled successfully.")]])
  else if mstatus == "disable" then
    ({ m with enabled := false, started := 0, message := "" },
     [ct, .writeBody [("requestid", requestID),
                      ("message", "Maintenance mode disabled successfully.")]])
  else if mstatus == "show" then
    (m, [ct, .writeStatus 503,
         .writeBody [("message", "service currently unvailable."),
                     ("reason", m.message),
                     ("since", fmtRFC1123 m.started)]])
  else
    (m, [ct, .writeBody []])

/-- MaintenanceModeMiddleware: when the mode flag is set, answer via
the Maintenance handler with the route parameter status=show and stop;
otherwise forward to the next handler in the chain. -/
def APIHandler.MaintenanceModeMiddleware (fmtRFC1123 : Nat → String)
    (m : Maintenance) (next : RawWriter → RawWriter) (requestID : String)
    (now : Nat) (rw : RawWriter) : RawWriter :=
  if m.enabled then
    applyGuard rw (APIHandler.MaintenanceEndpoint fmtRFC1123 m requestID "show" "" "" now).2
  else
    next rw

/-! ## Interceptor chain (api.middlewares.go lines 194-206).  The Go
loop starts from the last middleware and wraps towards the front;
`chainLoop m j` performs the iterations with loop index j-1 down
to 0. -/

def chainLoop {H : Type} (m : List (H → H)) : Nat → H → H
  | 0, handle => handle
  | j + 1, handle => chainLoop m j ((m.getD j id) handle)

def Middlewares.Chain {H : Type} (m : List (H → H)) (h : H) : H :=
  match m with
  | [] => h
  | _ :: _ => chainLoop m (m.length - 1) ((m.getD (m.length - 1) id) h)

/-- Instrumented interceptors for the ordering property: interceptor k
records entry, invokes the next handler once, and records exit; the
terminal handler records one terminal event. -/
inductive TraceEv where
  | enter (k : Nat)
  | exit (k : Nat)
  | term
  deriving Repr, DecidableEq

def traceWrap (k : Nat) (next : List TraceEv → List TraceEv) :
    List TraceEv → List TraceEv :=
  fun t => next (t ++ [TraceEv.enter k]) ++ [TraceEv.exit k]

def traceTerminal : List TraceEv → List TraceEv :=
  fun t => t ++ [TraceEv.term]

/-! ## Dual-tier book service (api.services.go).  Book mirrors the Go
struct (models.go); collaborator calls are embedded by passing each
call outcome explicitly, and the queue interaction is returned as the
list of enqueue attempts (lane, payload) the code hands to Push.  The
push outcome itself is a parameter that the code only logs. -/

structure Book where
  ID : String
  Title : String
  Description : String
  Author : String
  Price : String
  CreatedAt : String
  UpdatedAt : String
  deriving Repr, DecidableEq

/-- The Go zero value Book. -/
def emptyBook : Book := ⟨"", "", "", "", "", "", ""⟩

def CreateQueue : String := "creation"

def UpdateQueue : String := "updating"

def DeleteQueue : String := "deletion"

/-- Storage error values: the distinguishable not-found sentinel
(ErrBookNotFound) and arbitrary other storage failures. -/
inductive StorageErr where
  | notFound
  | fault (n : Nat)
  deriving Repr, DecidableEq

/-- BookService.GetOne over the outcomes of its storage calls: pGet is
the primary GetOne result, bGet the backup GetOne result, the third
parameter is the outcome of the best-effort backfill Add (only
logged).  Returns the call result, whether the backup was consulted,
and whether a backfill was attempted. -/
def BookService.GetOne (pGet bGet : Except StorageErr Book)
    (_pAddBackfill : Option StorageErr) :
    Except StorageErr Book × Bool × Bool :=
  match pGet with
  | .ok book => (.ok book, false, false)
  | .error _ =>
      match bGet with
      | .error e => (.error e, true, false)
      | .ok book => (.ok book, true, true)

/-- BookService.GetAll: the Go method returns the primary listing when
the backup call errored or listed nothing, and the backup listing
otherwise. -/
def BookService.GetAll (bbooks : List Book) (berr : Option StorageErr)
    (pbooks : List Book) (perr : Option StorageErr) :
    List Book × Option StorageErr :=
  if berr.isSome || bbooks.length == 0 then (pbooks, perr)
  else (bbooks, berr)

/-- BookService.Add: primary write first; on success hand exactly one
create event to the queue; the push outcome is only logged. -/
def BookService.Add (pAddErr : Option StorageErr) (book : Book)
    (_pushErr : Option StorageErr) :
    Option StorageErr × List (String × Book) :=
  match pAddErr with
  | some e => (some e, [])
  | none => (none, [(CreateQueue, book)])

/-- BookService.Delete: primary delete first; on success hand exactly
one delete event carrying just the id to the queue. -/
def BookService.Delete (pDelErr : Option StorageErr) (id : String)
    (_pushErr : Option StorageErr) :
    Option StorageErr × List (String × Book) :=
  match pDelErr with
  | some e => (some e, [])
  | none => (none, [(DeleteQueue, { emptyBook with ID := id })])

/-- BookService.Update: stamps UpdatedAt with the clock, writes the
primary (pUpd is that call outcome on the stamped book), and on
success hands one update event carrying the stamped book to the
queue. -/
def BookService.Update (now : String) (book : Book)
    (pUpd : Book × Option StorageErr) (_pushErr : Option StorageErr) :
    (Book × Option StorageErr) × List (String × Book) :=
  let book2 := { book with UpdatedAt := now }
  match pUpd.2 with
  | some e => ((pUpd.1, some e), [])
  | none => ((pUpd.1, none), [(UpdateQueue, book2)])

/-! ## Redis-backed primary store, Delete path (repo.redis.go lines
179-185).  The go-redis client is modelled from its documented
behaviour: HDEL is an integer reply (number of removed fields) and
never yields the redis.Nil sentinel, which arises only from nil
replies such as HGET on a missing field.  The hash is a field-to-book
association (JSON round-tripping abstracted). -/

inductive RedisErr where
  | nilReply
  | other (n : Nat)
  deriving Repr, DecidableEq

/-- HDEL on a healthy connection: removes the field and reports how
many fields were removed, with no error. -/
def redisHDel (h : List (String × Book)) (id : String) :
    List (String × Book) × Nat × Option RedisErr :=
  (h.filter (fun p => !(p.1 == id)),
   (h.filter (fun p => p.1 == id)).length,
   none)

/-- redisBookStorage.Delete: issues HDEL and maps the redis.Nil
sentinel to ErrBookNotFound, forwarding any other error. -/
def redisBookStorage.Delete (h : List (String × Book)) (id : String) :
    List (String × Book) × Option StorageErr :=
  let r := redisHDel h id
  match r.2.2 with
  | some .nilReply => (r.1, some .notFound)
  | some (.other n) => (r.1, some (.fault n))
  | none => (r.1, none)

/-! ## Replication consumer (infra.consumers.go lines 23-56).  Each
loop iteration pops; the pop outcome carries whether the context was
done at that instant and, for successful pops, the outcome of the
backup-store apply the loop will attempt. -/

inductive PopOutcome where
  | err (ctxDone : Bool)
  | ok (qid : String) (book : Book) (applyErr : Option StorageErr)
  deriving Repr, DecidableEq

inductive ConsumeEnd where
  | finished
  | pending
  deriving Repr, DecidableEq

/-- boltDBConsumer.Consume over a trace of pop outcomes: returns the
backup mutations attempted (lane, payload, success) in order, and
whether the loop returned (always with a nil error) or was still
draining when the trace ended. -/
def boltDBConsumer.Consume :
    List PopOutcome → List (String × Book × Bool) × ConsumeEnd
  | [] => ([], .pending)
  | .err true :: _ => ([], .finished)
  | .err false :: rest => boltDBConsumer.Consume rest
  | .ok qid b ae :: rest =>
      let applied :=
        if qid == CreateQueue || qid == UpdateQueue || qid == DeleteQueue
        then [(qid, b, ae.isNone)] else []
      let r := boltDBConsumer.Consume rest
      (applied ++ r.1, r.2)

/-! ## ID validation (helpers.handlers.go lines 53-59).  Go strings are
modelled as character lists.  uuid.FromStringOrNil is modelled for the
canonical 8-4-4-4-12 form: a well-formed string parses to its 32 hex
nibbles, anything else (and hence also a parse failure) yields the nil
uuid, which is all zeros. -/

def trimPfx (s p : List Char) : List Char :=
  if p.isPrefixOf s then s.drop p.length else s

def isHexChar (c : Char) : Bool :=
  ('0' ≤ c && c ≤ '9') || ('a' ≤ c && c ≤ 'f') || ('A' ≤ c && c ≤ 'F')

def dashIdx (i : Nat) : Bool :=
  i == 8 || i == 13 || i == 18 || i == 23

def isUUIDFormat (s : List Char) : Bool :=
  s.length == 36 &&
    (List.range 36).all (fun i =>
      if dashIdx i then s.getD i ' ' == '-' else isHexChar (s.getD i ' '))

def hexVal (c : Char) : Nat :=
  if '0' ≤ c && c ≤ '9' then c.toNat - '0'.toNat
  else if 'a' ≤ c && c ≤ 'f' then c.toNat - 'a'.toNat + 10
  else if 'A' ≤ c && c ≤ 'F' then c.toNat - 'A'.toNat + 10
  else 0

def uuidNil : List Nat := List.replicate 32 0

def parseUUID (s : List Char) : Option (List Nat) :=
  if isUUIDFormat s then
    some ((s.filter (fun c => !(c == '-'))).map hexVal)
  else none

def uuidFromStringOrNil (s : List Char) : List Nat :=
  (parseUUID s).getD uuidNil

/-- IDsHandler.IsValid: strips the custom type marker (pfx plus colon)
when present and accepts exactly when the remainder parses to a
non-nil uuid. -/
def IDsHandler.IsValid (id pfx : List Char) : Bool :=
  !(uuidFromStringOrNil (trimPfx id (pfx ++ [':'])) == uuidNil)

/-! ## Guard and handler composition for the recorded-status claim.
The stats middleware creates the sink before dispatch; when the guard
pre-empts, its wire actions land on the raw writer first and the
still-running handler then acts through the sink. -/

def guardThenHandler (o : RaceOutcome) (rid : String) (tNs : Nat)
    (handlerOps : List SinkOp) : CustomResponseWriter × RawWriter :=
  sinkRun (NewCustomResponseWriter,
    applyGuard RawWriter.init (TimeoutMiddlewareGuard rid tNs o)) handlerOps

def guardStatus : CtxCause → Nat
  | .deadlineExceeded => 504
  | .canceled => 499

/-- The finalization the repository handlers perform through
WriteResponse and WriteErrorResponse when the request context is
already done (src/unnamed/part_011): commit 504 on deadline
exceeded, 499 otherwise, and send no body. -/
def writeResponseFinalizeOps : CtxCause → List SinkOp
  | .deadlineExceeded => [SinkOp.writeHeader 504]
  | .canceled => [SinkOp.writeHeader 499]

/-! ## Lemmas about the sink state machine. -/

lemma hGet_hSet (hs : List (String × String)) (k v : String) :
    hGet (hSet hs k v) k = v := by
  rw [hGet, hSet, List.find?_cons_of_pos _ (by simp)]
  rfl

lemma abortValue_ne_empty (t : Bool) : (abortValue t == "") = false := by
  cases t <;> rfl

lemma aborted_after_abort (rw : RawWriter) (t : Bool) :
    RawWriter.aborted { rw with headers := hSet rw.headers abortKey (abortValue t) } = true := by
  rw [RawWriter.aborted]
  show (!(hGet (hSet rw.headers abortKey (abortValue t)) abortKey == "")) = true
  rw [hGet_hSet, abortValue_ne_empty]
  rfl

lemma sinkStep_of_aborted (st : CustomResponseWriter × RawWriter) (op : SinkOp)
    (h : st.2.aborted = true) :
    (sinkStep st op).2.aborted = true ∧ (sinkStep st op).2.statuses = st.2.statuses := by
  cases op with
  | writeHeader c =>
      simp [sinkStep, CustomResponseWriter.WriteHeader, h]
  | write s =>
      simp [sinkStep, CustomResponseWriter.Write, h]
  | abort t =>
      refine ⟨aborted_after_abort st.2 t, rfl⟩

lemma sinkRun_of_aborted (ops : List SinkOp) :
    ∀ st : CustomResponseWriter × RawWriter, st.2.aborted = true →
      (sinkRun st ops).2.aborted = true ∧ (sinkRun st ops).2.statuses = st.2.statuses := by
  induction ops with
  | nil => intro st h; exact ⟨h, rfl⟩
  | cons op rest ih =>
      intro st h
      have hstep := sinkStep_of_aborted st op h
      have := ih (sinkStep st op) hstep.1
      simp only [sinkRun, List.foldl_cons] at *
      exact ⟨this.1, this.2.trans hstep.2⟩

lemma specForwarded_true_left (ops : List SinkOp) :
    ∀ wr : Bool, specForwarded true wr ops = [] := by
  induction ops with
  | nil => intro wr; rfl
  | cons op rest ih =>
      intro wr
      cases op with
      | writeHeader c => simp [specForwarded, ih]
      | write s => simp [specForwarded, ih]
      | abort t => simp [specForwarded, ih]

lemma specForwarded_wrote_true (ops : List SinkOp) :
    ∀ ab : Bool, specForwarded ab true ops = [] := by
  induction ops with
  | nil => intro ab; rfl
  | cons op rest ih =>
      intro ab
      cases op with
      | writeHeader c => simp [specForwarded, ih]
      | write s =>
          cases ab with
          | false => simp [specForwarded, ih]
          | true => simp [specForwarded, specForwarded_true_left]
      | abort t => simp [specForwarded, specForwarded_true_left]

lemma specForwarded_length (ops : List SinkOp) :
    ∀ ab wr : Bool, (specForwarded ab wr ops).length ≤ 1 := by
  induction ops with
  | nil => intro ab wr; simp [specForwarded]
  | cons op rest ih =>
      intro ab wr
      cases op with
      | writeHeader c =>
          by_cases h : (ab || wr) = true
          · simp [specForwarded, h]; exact ih ab true
          · simp only [specForwarded, h, if_false]
            simp [specForwarded_wrote_true]
      | write s =>
          cases ab with
          | true => simp [specForwarded]; exact ih true wr
          | false =>
              cases wr with
              | true => simp [specForwarded]; exact ih false true
              | false => simp [specForwarded, specForwarded_wrote_true]
      | abort t =>
          simp [specForwarded]; exact ih true wr

/-- Generalized refinement: starting from any non-aborted state whose
wrote flag matches `wr` and whose pending code is the default 200 if
nothing was written yet, the codes the sink forwards to the raw writer
are exactly the claim-worded trace. -/
lemma sinkRun_statuses (ops : List SinkOp) :
    ∀ (cw : CustomResponseWriter) (rw : RawWriter) (wr : Bool),
      rw.aborted = false → cw.wrote = wr → (cw.wrote = false → cw.code = 200) →
      (sinkRun (cw, rw) ops).2.statuses = rw.statuses ++ specForwarded false wr ops := by
  induction ops with
  | nil => intro cw rw wr _ _ _; simp [sinkRun, specForwarded]
  | cons op rest ih =>
      intro cw rw wr hab hwr hcode
      cases op with
      | writeHeader c =>
          simp only [sinkRun, List.foldl_cons, sinkStep, CustomResponseWriter.WriteHeader,
            hab, Bool.false_eq_true, if_false]
          cases hw : cw.wrote with
          | true =>
              have : wr = true := hwr ▸ hw
              subst this
              simp only [hw, Bool.not_true, Bool.false_eq_true, if_false]
              have := ih cw rw true hab hw (by intro h; rw [hw] at h; cases h)
              simpa [sinkRun, specForwarded] using this
          | false =>
              have : wr = false := hwr ▸ hw
              subst this
              simp only [hw, Bool.not_false, if_true]
              have := ih { cw with code := c, wrote := true }
                { rw with statuses := rw.statuses ++ [c] } true hab rfl
                (by intro h; cases h)
              simp only [sinkRun] at this
              rw [this]
              simp [specForwarded]
      | write s =>
          simp only [sinkRun, List.foldl_cons, sinkStep, CustomResponseWriter.Write,
            hab, Bool.false_eq_true, if_false]
          cases hw : cw.wrote with
          | true =>
              have : wr = true := hwr ▸ hw
              subst this
              simp only [hw, Bool.not_true, Bool.false_eq_true, if_false]
              have h2 := ih ⟨cw.code, cw.bytes + s.length, true⟩
                ⟨rw.headers, rw.statuses, rw.chunks ++ [s]⟩ true hab rfl
                (by intro h; cases h)
              simp only [sinkRun] at h2
              rw [h2]
              simp [specForwarded]
          | false =>
              have hwrf : wr = false := hwr ▸ hw
              subst hwrf
              have hc : cw.code = 200 := hcode hw
              simp only [hw, Bool.not_false, if_true, CustomResponseWriter.WriteHeader,
                hab, Bool.false_eq_true, if_false]
              have h2 := ih ⟨cw.code, cw.bytes + s.length, true⟩
                ⟨rw.headers, rw.statuses ++ [cw.code], rw.chunks ++ [s]⟩ true hab rfl
                (by intro h; cases h)
              simp only [sinkRun] at h2
              rw [h2]
              simp [specForwarded, hc]
      | abort t =>
          simp only [sinkRun, List.foldl_cons, sinkStep]
          have hab2 := aborted_after_abort rw t
          have h2 := (sinkRun_of_aborted rest
            (cw, { rw with headers := hSet rw.headers abortKey (abortValue t) }) hab2).2
          simp only [sinkRun] at h2
          rw [h2]
          simp [specForwarded, specForwarded_true_left]

/-- Claim C1: against a fresh sink, every operation sequence forwards
at most one status code to the underlying writer; the forwarded trace
is exactly the claim-worded trace (the first code reaching the sink
while not aborted and nothing yet written, the implicit first-write
commit carrying the default 200); and once the abort marker is set a
Write forwards nothing and returns the explicit finalized error. -/
theorem claimC1 (ops : List SinkOp) :
    ((sinkRun (NewCustomResponseWriter, RawWriter.init) ops).2.statuses.length ≤ 1)
    ∧ ((sinkRun (NewCustomResponseWriter, RawWriter.init) ops).2.statuses
        = specForwarded false false ops)
    ∧ (∀ (cw : CustomResponseWriter) (rw : RawWriter) (s : String),
        rw.aborted = true →
        CustomResponseWriter.Write cw rw s = ((cw, rw), .error abortErrMsg)) := by
  have h := sinkRun_statuses ops NewCustomResponseWriter RawWriter.init false rfl rfl
    (fun _ => rfl)
  refine ⟨?_, ?_, ?_⟩
  · rw [h]
    simpa [RawWriter.init] using specForwarded_length ops false false
  · simpa [RawWriter.init] using h
  · intro cw rw s hab
    simp [CustomResponseWriter.Write, hab]

/-- Witness for C1 at a concrete aborted state and operation list. -/
theorem claimC1_witness :
    CustomResponseWriter.Write NewCustomResponseWriter
        ⟨hSet [] abortKey "T", [504], []⟩ "late body"
      = ((NewCustomResponseWriter, ⟨hSet [] abortKey "T", [504], []⟩),
         .error abortErrMsg) :=
  (claimC1 []).2.2 NewCustomResponseWriter ⟨hSet [] abortKey "T", [504], []⟩
    "late body" (by decide)

/-! ## Lemmas for the guard claims. -/

lemma find?_keyFilter (k1 k2 : String) (h : (k2 == k1) = false) :
    ∀ hs : List (String × String),
      (hs.filter fun p => !(p.1 == k2)).find? (fun p => p.1 == k1)
        = hs.find? (fun p => p.1 == k1) := by
  intro hs
  induction hs with
  | nil => rfl
  | cons p rest ih =>
      cases hk : (p.1 == k2) with
      | true =>
          have hp : p.1 = k2 := by simpa using hk
          have hk1 : (p.1 == k1) = false := by rw [hp]; exact h
          rw [List.filter_cons_of_neg (by simp [hk]),
            List.find?_cons_of_neg _ (by simp [hk1]), ih]
      | false =>
          rw [List.filter_cons_of_pos (by simp [hk])]
          cases hk1 : (p.1 == k1) with
          | true =>
              rw [List.find?_cons_of_pos _ (by simp [hk1]),
                List.find?_cons_of_pos _ (by simp [hk1])]
          | false =>
              rw [List.find?_cons_of_neg _ (by simp [hk1]),
                List.find?_cons_of_neg _ (by simp [hk1]), ih]

lemma hGet_hSet_ne (hs : List (String × String)) (k1 k2 v : String)
    (h : (k2 == k1) = false) :
    hGet (hSet hs k2 v) k1 = hGet hs k1 := by
  rw [hGet, hSet, List.find?_cons_of_neg _ (by simp [h]), find?_keyFilter k1 k2 h hs]
  rfl

lemma guard_aborts (rid : String) (tNs : Nat) (c : CtxCause) (rw : RawWriter) :
    (applyGuard rw (TimeoutMiddlewareGuard rid tNs (.ctxDone c))).aborted = true := by
  cases c with
  | canceled =>
      show (!(hGet (hSet rw.headers abortKey (abortValue true)) abortKey == "")) = true
      rw [hGet_hSet, abortValue_ne_empty]
      rfl
  | deadlineExceeded =>
      show (!(hGet (hSet (hSet rw.headers abortKey "T") contentTypeKey jsonContentType)
        abortKey == "") : Bool) = true
      rw [hGet_hSet_ne _ _ _ _ (by decide), hGet_hSet]
      rfl

lemma f0Round_whole (n : Nat) : f0Round (n * nanosPerSec) = n := by
  unfold f0Round
  have h1 : n * nanosPerSec / nanosPerSec = n :=
    Nat.mul_div_cancel n (by decide : 0 < nanosPerSec)
  have h2 : n * nanosPerSec % nanosPerSec = 0 := Nat.mul_mod_left n nanosPerSec
  simp only [h1, h2]
  simp [nanosPerSec]

/-- Claim C2: when the deadline signal wins with cause deadline
exceeded, the guard first sets the abort marker, then commits 504 and
the JSON body with requestid, the fixed message, and the timeout
rendered as the whole-second count followed by " secs"; on explicit
cancellation it sets the marker and commits 499 with no body; when the
handler finishes first it emits nothing; and after either marker any
handler write through the sink errors out without forwarding. -/
theorem claimC2 (rid : String) (n : Nat) :
    (TimeoutMiddlewareGuard rid (n * nanosPerSec) (.ctxDone .deadlineExceeded)
        = [.setHeader abortKey "T",
           .setHeader contentTypeKey jsonContentType,
           .writeStatus 504,
           .writeBody [("requestid", rid),
                       ("message", "request handling timed out"),
                       ("timeout", toString n ++ " secs")]])
    ∧ (TimeoutMiddlewareGuard rid (n * nanosPerSec) (.ctxDone .canceled)
        = [.setHeader abortKey "C", .writeStatus 499])
    ∧ (TimeoutMiddlewareGuard rid (n * nanosPerSec) .handlerDone = [])
    ∧ (∀ (c : CtxCause) (rw : RawWriter) (cw : CustomResponseWriter) (s : String),
        CustomResponseWriter.Write cw
            (applyGuard rw (TimeoutMiddlewareGuard rid (n * nanosPerSec) (.ctxDone c))) s
          = ((cw, applyGuard rw (TimeoutMiddlewareGuard rid (n * nanosPerSec) (.ctxDone c))),
             .error abortErrMsg)) := by
  refine ⟨?_, rfl, rfl, ?_⟩
  · simp [TimeoutMiddlewareGuard, fmtTimeoutSecs, f0Round_whole]
  · intro c rw cw s
    simp [CustomResponseWriter.Write, guard_aborts]

/-- Claim C6: with the maintenance flag enabled, the middleware
answers every request itself with 503 and the fixed body carrying the
message, the enable-time reason and the RFC1123-rendered activation
instant, independently of the downstream chain, which is never able to
influence the response. -/
theorem claimC6 (fmtRFC1123 : Nat → String) (m : Maintenance)
    (hm : m.enabled = true) (rid : String) (now : Nat) (rw : RawWriter) :
    (∀ next, APIHandler.MaintenanceModeMiddleware fmtRFC1123 m next rid now rw
        = applyGuard rw
            [.setHeader contentTypeKey jsonContentType,
             .writeStatus 503,
             .writeBody [("message", "service currently unvailable."),
                         ("reason", m.message),
                         ("since", fmtRFC1123 m.started)]])
    ∧ (∀ next1 next2,
        APIHandler.MaintenanceModeMiddleware fmtRFC1123 m next1 rid now rw
          = APIHandler.MaintenanceModeMiddleware fmtRFC1123 m next2 rid now rw)
    ∧ ((APIHandler.MaintenanceModeMiddleware fmtRFC1123 m
          (fun x => x) rid now RawWriter.init).wireStatus = 503) := by
  refine ⟨?_, ?_, ?_⟩
  · intro next
    simp [APIHandler.MaintenanceModeMiddleware, hm, APIHandler.MaintenanceEndpoint]
  · intro n1 n2
    simp [APIHandler.MaintenanceModeMiddleware, hm]
  · simp [APIHandler.MaintenanceModeMiddleware, hm, APIHandler.MaintenanceEndpoint,
      applyGuard, applyWireOp, RawWriter.wireStatus, RawWriter.init]

/-- Witness for C6 at a concrete enabled maintenance state. -/
theorem claimC6_witness :
    (APIHandler.MaintenanceModeMiddleware (fun _ => "Sat, 01 Jul 2023 00:00:00 UTC")
        ⟨true, "R", 5⟩ (fun x => x) "r:1" 9 RawWriter.init).wireStatus = 503 :=
  (claimC6 (fun _ => "Sat, 01 Jul 2023 00:00:00 UTC") ⟨true, "R", 5⟩ rfl
    "r:1" 9 RawWriter.init).2.2

/-! ## Lemmas for the interceptor chain. -/

lemma chainLoop_eq_foldr_take {H : Type} (m : List (H → H)) :
    ∀ (j : Nat) (handle : H), j ≤ m.length →
      chainLoop m j handle = (m.take j).foldr (fun f acc => f acc) handle := by
  intro j
  induction j with
  | zero => intro handle _; simp [chainLoop]
  | succ j ih =>
      intro handle hj
      have hjlt : j < m.length := Nat.lt_of_lt_of_le (Nat.lt_succ_self j) hj
      rw [chainLoop, ih _ (Nat.le_of_lt hjlt)]
      rw [List.getD_eq_getElem m id hjlt]
      rw [← List.take_concat_get m j hjlt, List.concat_eq_append, List.foldr_append]
      simp only [List.foldr_cons, List.foldr_nil]

lemma chain_eq_foldr {H : Type} (m : List (H → H)) (h : H) :
    Middlewares.Chain m h = m.foldr (fun f acc => f acc) h := by
  cases m with
  | nil => rfl
  | cons a l =>
      have hlt : l.length < (a :: l).length := by simp
      have hlen : (a :: l).length = l.length + 1 := by simp
      rw [Middlewares.Chain]
      simp only [List.length_cons, Nat.add_sub_cancel]
      rw [List.getD_eq_getElem (a :: l) id hlt]
      rw [chainLoop_eq_foldr_take (a :: l) l.length _ (by simp)]
      conv_rhs =>
        rw [← List.take_length (a :: l), hlen,
          ← List.take_concat_get (a :: l) l.length hlt,
          List.concat_eq_append, List.foldr_append]
      simp only [List.foldr_cons, List.foldr_nil]

lemma foldr_traceWrap (ks : List Nat) :
    ∀ t, (ks.map traceWrap).foldr (fun f acc => f acc) traceTerminal t
      = t ++ ks.map TraceEv.enter ++ TraceEv.term :: (ks.reverse).map TraceEv.exit := by
  induction ks with
  | nil => intro t; simp [traceTerminal]
  | cons k ks ih =>
      intro t
      simp only [List.map_cons, List.foldr_cons, traceWrap]
      rw [ih (t ++ [TraceEv.enter k])]
      simp [List.append_assoc]

lemma count_term_enter (ks : List Nat) :
    (ks.map TraceEv.enter).count TraceEv.term = 0 := by
  rw [List.count_eq_zero]
  intro hmem
  obtain ⟨k, _, hk⟩ := List.mem_map.mp hmem
  cases hk

lemma count_term_exit (ks : List Nat) :
    (ks.map TraceEv.exit).count TraceEv.term = 0 := by
  rw [List.count_eq_zero]
  intro hmem
  obtain ⟨k, _, hk⟩ := List.mem_map.mp hmem
  cases hk

/-- Claim C7: the chain of an empty interceptor list is the terminal
handler unchanged; in general the chain is the right fold i1 (i2 (…
(in h))); and on instrumented interceptors the composed handler enters
in list order, exits in reverse order, and runs the terminal handler
exactly once. -/
theorem claimC7 :
    (∀ (H : Type) (h : H), Middlewares.Chain ([] : List (H → H)) h = h)
    ∧ (∀ (H : Type) (m : List (H → H)) (h : H),
        Middlewares.Chain m h = m.foldr (fun f acc => f acc) h)
    ∧ (∀ ks : List Nat,
        Middlewares.Chain (ks.map traceWrap) traceTerminal []
          = ks.map TraceEv.enter ++ TraceEv.term :: (ks.reverse).map TraceEv.exit)
    ∧ (∀ ks : List Nat,
        (Middlewares.Chain (ks.map traceWrap) traceTerminal []).count TraceEv.term
          = 1) := by
  have htrace : ∀ ks : List Nat,
      Middlewares.Chain (ks.map traceWrap) traceTerminal []
        = ks.map TraceEv.enter ++ TraceEv.term :: (ks.reverse).map TraceEv.exit := by
    intro ks
    rw [chain_eq_foldr]
    simpa using foldr_traceWrap ks []
  refine ⟨fun H h => rfl, fun H m h => chain_eq_foldr m h, htrace, ?_⟩
  intro ks
  rw [htrace ks]
  simp [List.count_append, List.count_cons, count_term_enter, count_term_exit]

/-- Counterexample to C3 as stated: on a primary error that is not
not-found (a generic storage fault), GetOne still consults the backup
and returns the backup copy instead of propagating the primary error
as the claim requires. -/
theorem claimC3_counterexample :
    BookService.GetOne (.error (.fault 7))
        (.ok ⟨"b:1", "t", "d", "a", "p", "c", "u"⟩) none
      = (.ok ⟨"b:1", "t", "d", "a", "p", "c", "u"⟩, true, true)
    ∧ BookService.GetOne (.error (.fault 7))
        (.ok ⟨"b:1", "t", "d", "a", "p", "c", "u"⟩) none
      ≠ (.error (.fault 7), false, false) := by
  exact ⟨rfl, by simp [BookService.GetOne]⟩

/-- Claim C3 amended: GetOne returns the primary copy when the primary
read succeeds, without touching the backup; on any primary error
(not only not-found) it consults the backup, returning the backup copy
and attempting a best-effort backfill when the backup has it, and
propagating the backup error otherwise; the backfill outcome never
changes the returned value. -/
theorem claimC3 :
    (∀ (b : Book) (bGet : Except StorageErr Book) (pA : Option StorageErr),
        BookService.GetOne (.ok b) bGet pA = (.ok b, false, false))
    ∧ (∀ (e : StorageErr) (b2 : Book) (pA : Option StorageErr),
        BookService.GetOne (.error e) (.ok b2) pA = (.ok b2, true, true))
    ∧ (∀ (e e2 : StorageErr) (pA : Option StorageErr),
        BookService.GetOne (.error e) (.error e2) pA = (.error e2, true, false))
    ∧ (∀ (pGet bGet : Except StorageErr Book) (pA pA2 : Option StorageErr),
        BookService.GetOne pGet bGet pA = BookService.GetOne pGet bGet pA2) :=
  ⟨fun _ _ _ => rfl, fun _ _ _ => rfl, fun _ _ _ => rfl, fun _ _ _ _ => rfl⟩

/-- Claim C4: GetAll returns exactly the backup listing when the
backup call succeeds with a non-empty list, and the primary listing
together with the primary error when the backup call errors or
returns an empty list. -/
theorem claimC4 :
    (∀ (b : Book) (bs pbooks : List Book) (perr : Option StorageErr),
        BookService.GetAll (b :: bs) none pbooks perr = (b :: bs, none))
    ∧ (∀ (bbooks pbooks : List Book) (e : StorageErr) (perr : Option StorageErr),
        BookService.GetAll bbooks (some e) pbooks perr = (pbooks, perr))
    ∧ (∀ (pbooks : List Book) (perr : Option StorageErr),
        BookService.GetAll [] none pbooks perr = (pbooks, perr)) :=
  ⟨fun _ _ _ _ => rfl, fun _ _ _ _ => rfl, fun _ _ => rfl⟩

/-- Claim C5: the service-level mutation contract holds (primary error
returned with the queue untouched; on success exactly one event handed
to the right lane, with the delete event carrying just the id and the
push outcome never propagated), but the redis Delete path never
produces the not-found error for a missing id: HDEL reports zero
removed fields with a nil error, so the service enqueues a delete
event even for an id that was never stored, contradicting the claim
and the repository test that asserts ErrBookNotFound there. -/
theorem claimC5 :
    (∀ (e : StorageErr) (b : Book) (pe : Option StorageErr),
        BookService.Add (some e) b pe = (some e, []))
    ∧ (∀ (b : Book) (pe : Option StorageErr),
        BookService.Add none b pe = (none, [(CreateQueue, b)]))
    ∧ (∀ (e : StorageErr) (id : String) (pe : Option StorageErr),
        BookService.Delete (some e) id pe = (some e, []))
    ∧ (∀ (id : String) (pe : Option StorageErr),
        BookService.Delete none id pe
          = (none, [(DeleteQueue, { emptyBook with ID := id })]))
    ∧ (∀ (now : String) (b pb : Book) (e : StorageErr) (pe : Option StorageErr),
        BookService.Update now b (pb, some e) pe = ((pb, some e), []))
    ∧ (∀ (now : String) (b pb : Book) (pe : Option StorageErr),
        BookService.Update now b (pb, none) pe
          = ((pb, none), [(UpdateQueue, { b with UpdatedAt := now })]))
    ∧ (redisBookStorage.Delete [] "b:1" = ([], none))
    ∧ ((BookService.Delete (redisBookStorage.Delete [] "b:1").2 "b:1" none).2
        = [(DeleteQueue, { emptyBook with ID := "b:1" })]) :=
  ⟨fun _ _ _ => rfl, fun _ _ => rfl, fun _ _ _ => rfl, fun _ _ => rfl,
   fun _ _ _ _ _ => rfl, fun _ _ _ _ => rfl, rfl, rfl⟩

/-- Claim C9: a backup-store apply failure is logged and dropped, the
loop continuing with the rest of the trace unchanged in state; a pop
error without cancellation just retries; a pop error with the
cancellation signal done ends the loop with a nil result; and the loop
returns exactly when such a cancelled pop error occurs in the trace. -/
theorem claimC9 :
    (∀ (qid : String) (b : Book) (e : StorageErr) (rest : List PopOutcome),
        boltDBConsumer.Consume (.ok qid b (some e) :: rest)
          = ((if qid == CreateQueue || qid == UpdateQueue || qid == DeleteQueue
              then [(qid, b, false)] else []) ++ (boltDBConsumer.Consume rest).1,
             (boltDBConsumer.Consume rest).2))
    ∧ (∀ rest : List PopOutcome,
        boltDBConsumer.Consume (.err false :: rest) = boltDBConsumer.Consume rest)
    ∧ (∀ rest : List PopOutcome,
        boltDBConsumer.Consume (.err true :: rest) = ([], .finished))
    ∧ (∀ trace : List PopOutcome,
        (boltDBConsumer.Consume trace).2 = .finished ↔ PopOutcome.err true ∈ trace) := by
  refine ⟨fun _ _ _ _ => rfl, fun _ => rfl, fun _ => rfl, ?_⟩
  intro trace
  induction trace with
  | nil => simp [boltDBConsumer.Consume]
  | cons o rest ih =>
      cases o with
      | err ctxDone =>
          cases ctxDone with
          | true => simp [boltDBConsumer.Consume]
          | false => simp [boltDBConsumer.Consume, ih]
      | ok qid b ae => simp [boltDBConsumer.Consume, ih]

/-- Witness for C9: the loop finishes on a concrete trace whose pop
error coincides with the cancellation signal being done. -/
theorem claimC9_witness :
    (boltDBConsumer.Consume [PopOutcome.err true]).2 = ConsumeEnd.finished :=
  (claimC9.2.2.2 [PopOutcome.err true]).mpr (by simp)

/-! ## Lemmas for the id-validation claim. -/

lemma uuid_no_colon (u : List Char) (h : isUUIDFormat u = true)
    (i : Nat) (hi : i < 36) : ¬ u.getD i ' ' = ':' := by
  rw [isUUIDFormat, Bool.and_eq_true] at h
  have hall := List.all_eq_true.mp h.2 i (List.mem_range.mpr hi)
  intro hc
  rw [hc] at hall
  cases hd : dashIdx i with
  | true => rw [hd] at hall; simp at hall
  | false => rw [hd] at hall; simp [isHexChar] at hall

lemma trimPfx_uuid (u pfx : List Char) (h : isUUIDFormat u = true) :
    trimPfx u (pfx ++ [':']) = u := by
  rw [trimPfx]
  cases hp : (pfx ++ [':']).isPrefixOf u with
  | false => simp
  | true =>
      exfalso
      have hlen : u.length = 36 := by
        rw [isUUIDFormat, Bool.and_eq_true] at h
        simpa using h.1
      have hpre : (pfx ++ [':']) <+: u := by
        rw [← List.isPrefixOf_iff_prefix]
        exact hp
      obtain ⟨t, ht⟩ := hpre
      have ht2 : pfx ++ ':' :: t = u := by
        rw [← ht]
        simp
      have hlt : pfx.length < 36 := by
        have : pfx.length + (1 + t.length) = 36 := by
          rw [← hlen, ← ht2]
          simp
          omega
        omega
      have hidx : u.getD pfx.length ' ' = ':' := by
        rw [← ht2, List.getD_eq_getElem?_getD, List.getElem?_append_right (Nat.le_refl _)]
        simp
      exact uuid_no_colon u h pfx.length hlt hidx

/-- Counterexample to C10 as stated: the nil uuid string is a valid
uuid, yet IsValid rejects it because uuid.FromStringOrNil maps it to
uuid.Nil. -/
theorem claimC10_counterexample :
    isUUIDFormat ("00000000-0000-0000-0000-000000000000").toList = true
    ∧ IDsHandler.IsValid ("00000000-0000-0000-0000-000000000000").toList
        ['b'] = false := by
  exact ⟨by decide, by decide⟩

/-- Claim C10 amended: IsValid accepts every id that is a valid
non-nil uuid with no type marker at all, for every expected marker:
stripping only removes the marker when present, a uuid never contains
the colon, so the book routes do not enforce the b-prefixed id shape
the generator produces. -/
theorem claimC10 (u pfx : List Char) (h1 : isUUIDFormat u = true)
    (h2 : uuidFromStringOrNil u ≠ uuidNil) :
    IDsHandler.IsValid u pfx = true := by
  rw [IDsHandler.IsValid, trimPfx_uuid u pfx h1]
  simpa using h2

/-- Witness for C10 at a concrete plain uuid with the book marker. -/
theorem claimC10_witness :
    IDsHandler.IsValid ("123e4567-e89b-12d3-a456-426614174000").toList
      ['b'] = true :=
  claimC10 ("123e4567-e89b-12d3-a456-426614174000").toList ['b']
    (by decide) (by decide)

/-! ## Lemmas for the recorded-status claim. -/

lemma sinkRun_status_wire (ops : List SinkOp) :
    ∀ (cw : CustomResponseWriter) (rw : RawWriter),
      rw.aborted = false → (∀ t, SinkOp.abort t ∉ ops) →
      cw.code = rw.wireStatus → (cw.wrote = false → rw.statuses = []) →
      (sinkRun (cw, rw) ops).1.code = (sinkRun (cw, rw) ops).2.wireStatus := by
  induction ops with
  | nil => intro cw rw _ _ hcode _; simpa [sinkRun] using hcode
  | cons op rest ih =>
      intro cw rw hab hno hcode hempty
      have hnors : ∀ t, SinkOp.abort t ∉ rest :=
        fun t ht => hno t (List.mem_cons_of_mem _ ht)
      cases op with
      | abort t => exact absurd (List.mem_cons_self _ _) (hno t)
      | writeHeader c =>
          simp only [sinkRun, List.foldl_cons, sinkStep,
            CustomResponseWriter.WriteHeader, hab, Bool.false_eq_true, if_false]
          cases hw : cw.wrote with
          | true =>
              simp only [hw, Bool.not_true, Bool.false_eq_true, if_false]
              have h2 := ih cw rw hab hnors hcode
                (by intro hh; rw [hw] at hh; cases hh)
              simp only [sinkRun] at h2
              exact h2
          | false =>
              simp only [hw, Bool.not_false, if_true]
              have hst : rw.statuses = [] := hempty hw
              have h2 := ih ⟨c, cw.bytes, true⟩
                ⟨rw.headers, rw.statuses ++ [c], rw.chunks⟩ hab hnors
                (by simp [RawWriter.wireStatus, hst]) (by intro hh; cases hh)
              simp only [sinkRun] at h2
              exact h2
      | write s =>
          simp only [sinkRun, List.foldl_cons, sinkStep,
            CustomResponseWriter.Write, hab, Bool.false_eq_true, if_false]
          cases hw : cw.wrote with
          | true =>
              simp only [hw, Bool.not_true, Bool.false_eq_true, if_false]
              have h2 := ih ⟨cw.code, cw.bytes + s.length, true⟩
                ⟨rw.headers, rw.statuses, rw.chunks ++ [s]⟩ hab hnors hcode
                (by intro hh; cases hh)
              simp only [sinkRun] at h2
              exact h2
          | false =>
              simp only [hw, Bool.not_false, if_true,
                CustomResponseWriter.WriteHeader, hab, Bool.false_eq_true, if_false]
              have hst : rw.statuses = [] := hempty hw
              have h2 := ih ⟨cw.code, cw.bytes + s.length, true⟩
                ⟨rw.headers, rw.statuses ++ [cw.code], rw.chunks ++ [s]⟩ hab hnors
                (by simp [RawWriter.wireStatus, hst]) (by intro hh; cases hh)
              simp only [sinkRun] at h2
              exact h2

/-- Counterexample to C8 as stated: after the guard finalized with
504, a late handler that passes 200 to the sink makes Status() report
200 while the wire carried 504 — the recorded code is what the late
handler passed, not the guard code. -/
theorem claimC8_counterexample :
    ((guardThenHandler (.ctxDone .deadlineExceeded) "r:1" (15 * nanosPerSec)
        [SinkOp.writeHeader 200]).1.Status = 200)
    ∧ ((guardThenHandler (.ctxDone .deadlineExceeded) "r:1" (15 * nanosPerSec)
        [SinkOp.writeHeader 200]).2.wireStatus = 504)
    ∧ ((guardThenHandler (.ctxDone .deadlineExceeded) "r:1" (15 * nanosPerSec)
        [SinkOp.writeHeader 200]).1.Status
      ≠ (guardThenHandler (.ctxDone .deadlineExceeded) "r:1" (15 * nanosPerSec)
        [SinkOp.writeHeader 200]).2.wireStatus) :=
  ⟨rfl, rfl, by decide⟩

/-- Claim C8 amended: when the guard never pre-empts, the code Status
reports equals the code sent over the wire; when the guard pre-empts,
the sink records whatever code the late handler passes without
forwarding it, so the histogram matches the wire exactly because the
repository handlers finalize through WriteResponse and
WriteErrorResponse, which derive the same 499 or 504 from the
cancellation cause. -/
theorem claimC8 :
    (∀ ops : List SinkOp, (∀ t, SinkOp.abort t ∉ ops) →
        (sinkRun (NewCustomResponseWriter, RawWriter.init) ops).1.Status
          = (sinkRun (NewCustomResponseWriter, RawWriter.init) ops).2.wireStatus)
    ∧ (∀ (cause : CtxCause) (rid : String) (n : Nat),
        (guardThenHandler (.ctxDone cause) rid n
            (writeResponseFinalizeOps cause)).1.Status = guardStatus cause
        ∧ (guardThenHandler (.ctxDone cause) rid n
            (writeResponseFinalizeOps cause)).2.wireStatus = guardStatus cause)
    ∧ (∀ (cause : CtxCause) (rid : String) (n c : Nat),
        (guardThenHandler (.ctxDone cause) rid n
            [SinkOp.writeHeader c]).1.Status = c) := by
  refine ⟨?_, ?_, ?_⟩
  · intro ops hno
    exact sinkRun_status_wire ops NewCustomResponseWriter RawWriter.init
      rfl hno rfl (fun _ => rfl)
  · intro cause rid n
    cases cause with
    | canceled => exact ⟨rfl, rfl⟩
    | deadlineExceeded => exact ⟨rfl, rfl⟩
  · intro cause rid n c
    cases cause with
    | canceled => rfl
    | deadlineExceeded => rfl

/-- Witness for C8 on a concrete abort-free handler run. -/
theorem claimC8_witness :
    (sinkRun (NewCustomResponseWriter, RawWriter.init)
        [SinkOp.writeHeader 201]).1.Status
      = (sinkRun (NewCustomResponseWriter, RawWriter.init)
        [SinkOp.writeHeader 201]).2.wireStatus :=
  claimC8.1 [SinkOp.writeHeader 201] (by intro t ht; simp at ht)
